import Mathlib

/-!
Shallow embedding of `src/azure_dbr_scim_sync/graph.py` (the sync-graph
builder of the Azure-account SCIM sync tool).

Modelling conventions:

* A raw Microsoft-Graph JSON record (a Python `dict`) is an association
  list from string keys to `JVal` values; keys of a real dict are unique,
  captured by `RawRecord.WF` where it matters.  The scalar values the code
  touches are strings, booleans and `null`.
* Python dict read `d[k]` that may raise `KeyError` is `alook` returning
  `Option`; `d[k] = v` is `aset` (replace in place, else append — Python
  dicts keep insertion order).
* Exceptions that escape `get_objects_for_sync` (`KeyError` on a missing
  key, `NameError` on the unbound loop variable `r`, a pydantic
  `ValidationError` re-raised by the `_register_*` helpers) are the
  `RunError` cases of an `Except` result.
* pydantic `model_validate` with `AliasChoices` picks the first alias key
  *present* in the input dict and then checks the value's type; a field
  with a `default` falls back to it only when no alias key is present.
* Python stores object references in `group.members`; the registered
  objects live in the run-scoped mappings and are keyed by their (string)
  `id`, each key written at most once, so a reference is faithfully
  represented by the pair (entity kind, id): `MemberRef`.  Dereferencing a
  `MemberRef` through the corresponding mapping of the `GraphSyncObject`
  yields exactly the object Python aliases.
* The HTTP transport is a parameter `TransportEnv`: `groupsByName name` is
  the `value` array of the group-lookup response (`none` when the response
  carries no `value` field), `membersOf id` the `value` array of the
  member-list call.  Transport faults are out of scope of the claims
  below, so the environment is total.
-/

namespace ScimSync

/-- A scalar JSON value as seen by `graph.py`: `null`, a string, or a boolean. -/
inductive JVal where
  | null : JVal
  | str : String → JVal
  | bool : Bool → JVal
deriving DecidableEq, Repr

/-- A raw member / group record: a JSON object, i.e. a Python dict. -/
abbrev RawRecord := List (String × JVal)

/-- Dict read: first binding of the key (Python dicts have unique keys). -/
def alook {α : Type} : List (String × α) → String → Option α
  | [], _ => none
  | (k', v) :: rest, k => if k' = k then some v else alook rest k

/-- Dict write `m[k] = v`: replace in place if present, else append
(Python dicts preserve insertion order). -/
def aset {α : Type} : List (String × α) → String → α → List (String × α)
  | [], k, v => [(k, v)]
  | (k', v') :: rest, k, v =>
      if k' = k then (k, v) :: rest else (k', v') :: aset rest k v

/-- Well-formedness of a record as a dict: keys are unique. -/
def RawRecord.WF (d : RawRecord) : Prop := (d.map Prod.fst).Nodup

/-- Line 201: `m = {k: v for k, v in m.items() if v is not None}` —
drop every `null`-valued field before validation. -/
def stripNulls (m : RawRecord) : RawRecord :=
  m.filter (fun p => !(p.2 == JVal.null))

/-- pydantic `AliasChoices`: the first alias key *present* in the input
wins, whatever its value. -/
def resolveAlias (d : RawRecord) : List String → Option JVal
  | [] => none
  | a :: rest =>
    match alook d a with
    | some v => some v
    | none => resolveAlias d rest

/-- A pydantic `ValidationError`, abstracted to the offending field. -/
inductive ValidationError where
  | missing (field : String)
  | wrongType (field : String)
deriving DecidableEq, Repr

/-- A required `str` field with alias choices: fails when no alias key is
present or the chosen value is not a string. -/
def reqStr (d : RawRecord) (aliases : List String) (field : String) :
    Except ValidationError String :=
  match resolveAlias d aliases with
  | none => .error (.missing field)
  | some (JVal.str s) => .ok s
  | some _ => .error (.wrongType field)

/-- A `bool` field with alias choices and a default: the default applies
only when no alias key is present. -/
def optBool (d : RawRecord) (aliases : List String) (field : String)
    (dflt : Bool) : Except ValidationError Bool :=
  match resolveAlias d aliases with
  | none => .ok dflt
  | some (JVal.bool b) => .ok b
  | some _ => .error (.wrongType field)

/-- `class GraphBase(BaseModel)`: `id` and `display_name`
(alias `displayName`). -/
structure GraphBase where
  id : String
  display_name : String
deriving DecidableEq, Repr

/-- `class GraphUser(GraphBase)`: adds `mail`
(aliases `mail`, `mailNickname`) and `active`
(alias `accountEnabled`, default `True`). -/
structure GraphUser where
  id : String
  display_name : String
  mail : String
  active : Bool
deriving DecidableEq, Repr

/-- `GraphUser.model_validate`. -/
def GraphUser.model_validate (d : RawRecord) : Except ValidationError GraphUser :=
  match reqStr d ["id"] "id" with
  | .error e => .error e
  | .ok i =>
    match reqStr d ["displayName"] "display_name" with
    | .error e => .error e
    | .ok dn =>
      match reqStr d ["mail", "mailNickname"] "mail" with
      | .error e => .error e
      | .ok ml =>
        match optBool d ["accountEnabled"] "active" true with
        | .error e => .error e
        | .ok ac => .ok ⟨i, dn, ml, ac⟩

/-- `class GraphServicePrincipal(GraphBase)`: adds `application_id`
(alias `appId`) and `active` (alias `accountEnabled`, default `True`). -/
structure GraphServicePrincipal where
  id : String
  display_name : String
  application_id : String
  active : Bool
deriving DecidableEq, Repr

/-- `GraphServicePrincipal.model_validate`. -/
def GraphServicePrincipal.model_validate (d : RawRecord) :
    Except ValidationError GraphServicePrincipal :=
  match reqStr d ["id"] "id" with
  | .error e => .error e
  | .ok i =>
    match reqStr d ["displayName"] "display_name" with
    | .error e => .error e
    | .ok dn =>
      match reqStr d ["appId"] "application_id" with
      | .error e => .error e
      | .ok ap =>
        match optBool d ["accountEnabled"] "active" true with
        | .error e => .error e
        | .ok ac => .ok ⟨i, dn, ap, ac⟩

/-- The three entity kinds the member dispatch distinguishes. -/
inductive EntityKind where
  | user : EntityKind
  | servicePrincipal : EntityKind
  | group : EntityKind
deriving DecidableEq, Repr

/-- A Python object reference into one of the run-scoped mappings: the
mapping (entity kind) together with the (unique, never overwritten) key
under which the object is registered. -/
structure MemberRef where
  kind : EntityKind
  id : String
deriving DecidableEq, Repr

/-- `class GraphGroup(GraphBase)`: adds `members`, a dict from member id
to the referenced member object (default empty). -/
structure GraphGroup where
  id : String
  display_name : String
  members : List (String × MemberRef)
deriving DecidableEq, Repr

/-- `GraphGroup.model_validate`: `members` defaults to the empty dict; a
scalar value under a `members` key cannot coerce to `Dict[str, GraphBase]`. -/
def GraphGroup.model_validate (d : RawRecord) : Except ValidationError GraphGroup :=
  match reqStr d ["id"] "id" with
  | .error e => .error e
  | .ok i =>
    match reqStr d ["displayName"] "display_name" with
    | .error e => .error e
    | .ok dn =>
      match alook d "members" with
      | some _ => .error (.wrongType "members")
      | none => .ok ⟨i, dn, []⟩

/-- A registered entity, as held by the loop variable `r`. -/
inductive Entity where
  | user : GraphUser → Entity
  | servicePrincipal : GraphServicePrincipal → Entity
  | group : GraphGroup → Entity
deriving DecidableEq, Repr

/-- The `id` attribute of whichever entity `r` holds. -/
def Entity.id : Entity → String
  | .user u => u.id
  | .servicePrincipal p => p.id
  | .group g => g.id

/-- The mapping an entity was registered into. -/
def Entity.kind : Entity → EntityKind
  | .user _ => .user
  | .servicePrincipal _ => .servicePrincipal
  | .group _ => .group

/-- The reference stored when the object is inserted into a `members` dict. -/
def Entity.ref (e : Entity) : MemberRef := ⟨e.kind, e.id⟩

/-- `class GraphSyncObject(BaseModel)`: the result aggregate — one mapping
per entity kind plus the error list. -/
structure GraphSyncObject where
  users : List (String × GraphUser) := []
  service_principals : List (String × GraphServicePrincipal) := []
  groups : List (String × GraphGroup) := []
  errors : List (RawRecord × ValidationError) := []
deriving DecidableEq, Repr

/-- An exception escaping `get_objects_for_sync`: a `KeyError` from a dict
read, the `NameError` on the unbound loop variable `r`, or a pydantic
`ValidationError` re-raised by a `_register_*` helper (line 156/169/182). -/
inductive RunError where
  | keyError (key : String)
  | nameError : RunError
  | validation (e : ValidationError)
deriving DecidableEq, Repr

/-- Membership test `id in mapping` where `id` is the raw JSON value of
`d['id']`: the mappings are keyed by validated ids, which are strings, so
a non-string raw id is never present. -/
def jlook {α : Type} (m : List (String × α)) (idv : JVal) : Option α :=
  match idv with
  | JVal.str s => alook m s
  | _ => none

/-- Lines 147–158, `_register_user(d)`: `id = d['id']` (KeyError when
absent); on a cache hit return the stored object unchanged; otherwise
validate, store under the validated id and return it — a failed
validation is logged and re-raised (`raise e`). -/
def _register_user (s : GraphSyncObject) (d : RawRecord) :
    Except RunError (GraphUser × GraphSyncObject) :=
  match alook d "id" with
  | none => .error (.keyError "id")
  | some idv =>
    match jlook s.users idv with
    | some u => .ok (u, s)
    | none =>
      match GraphUser.model_validate d with
      | .error e => .error (.validation e)
      | .ok obj => .ok (obj, { s with users := aset s.users obj.id obj })

/-- Lines 160–171, `_register_service_principal(d)`: same shape as
`_register_user` over the `service_principals` mapping. -/
def _register_service_principal (s : GraphSyncObject) (d : RawRecord) :
    Except RunError (GraphServicePrincipal × GraphSyncObject) :=
  match alook d "id" with
  | none => .error (.keyError "id")
  | some idv =>
    match jlook s.service_principals idv with
    | some p => .ok (p, s)
    | none =>
      match GraphServicePrincipal.model_validate d with
      | .error e => .error (.validation e)
      | .ok obj =>
        .ok (obj, { s with service_principals := aset s.service_principals obj.id obj })

/-- Lines 173–184, `_register_group(d)`: same shape over the `groups`
mapping. -/
def _register_group (s : GraphSyncObject) (d : RawRecord) :
    Except RunError (GraphGroup × GraphSyncObject) :=
  match alook d "id" with
  | none => .error (.keyError "id")
  | some idv =>
    match jlook s.groups idv with
    | some g => .ok (g, s)
    | none =>
      match GraphGroup.model_validate d with
      | .error e => .error (.validation e)
      | .ok obj => .ok (obj, { s with groups := aset s.groups obj.id obj })

/-- The transport collaborator, as consumed by the builder. -/
structure TransportEnv where
  groupsByName : String → Option (List RawRecord)
  membersOf : JVal → List RawRecord

/-- Lines 120–132, `get_group_by_name`: return the single match of the
filtered lookup (`if data and len(data) == 1: return data[0]`), else
`None` — zero matches, several matches and an absent `value` field all
yield `None`. -/
def get_group_by_name (env : TransportEnv) (name : String) : Option RawRecord :=
  match env.groupsByName name with
  | none => none
  | some data => if data.length = 1 then data.head? else none

/-- Line 215 through the alias `group = sync_data.groups[gid]`:
`group.members[r.id] = r` writes through to the object registered under
`gid` in the `groups` mapping. -/
def addMember (s : GraphSyncObject) (gid : String) (e : Entity) : GraphSyncObject :=
  { s with
    groups := s.groups.map (fun p =>
      if p.1 = gid then (p.1, { p.2 with members := aset p.2.members e.id e.ref }) else p) }

/-- Lines 203–210: the three successive `if m['@odata.type'] == ...`
tests (mutually exclusive, since they compare the same value against
three distinct constants); when no branch matches, the loop variable `r`
keeps whatever value it had before — possibly from an earlier member or
an earlier group. -/
def registerDispatch (s : GraphSyncObject) (r : Option Entity) (t : JVal)
    (m : RawRecord) : Except RunError (GraphSyncObject × Option Entity) :=
  if t = JVal.str "#microsoft.graph.user" then
    match _register_user s m with
    | .error e => .error e
    | .ok (u, s') => .ok (s', some (Entity.user u))
  else if t = JVal.str "#microsoft.graph.servicePrincipal" then
    match _register_service_principal s m with
    | .error e => .error e
    | .ok (p, s') => .ok (s', some (Entity.servicePrincipal p))
  else if t = JVal.str "#microsoft.graph.group" then
    match _register_group s m with
    | .error e => .error e
    | .ok (g, s') => .ok (s', some (Entity.group g))
  else .ok (s, r)

/-- Lines 199–215, the body of `for m in group_members`: strip `null`
fields, read the discriminant `m['@odata.type']` (KeyError when absent),
dispatch to the matching register routine — an `r` that was never
assigned raises `NameError` at line 212.  The `isinstance(r, Exception)`
test is always false, because the register routines re-raise instead of
returning the exception, so a bound `r` is always inserted into the
current group's `members`. -/
def processMember (s : GraphSyncObject) (r : Option Entity) (gid : String)
    (m0 : RawRecord) : Except RunError (GraphSyncObject × Option Entity) :=
  let m := stripNulls m0
  match alook m "@odata.type" with
  | none => .error (.keyError "@odata.type")
  | some t =>
    match registerDispatch s r t m with
    | .error e => .error e
    | .ok (_, none) => .error .nameError
    | .ok (s', some e) => .ok (addMember s' gid e, some e)

/-- The member loop of one group, threading the state and the loop
variable `r` (which survives into later groups). -/
def processMembers (gid : String) :
    GraphSyncObject → Option Entity → List RawRecord →
    Except RunError (GraphSyncObject × Option Entity)
  | s, r, [] => .ok (s, r)
  | s, r, m :: ms =>
    match processMember s r gid m with
    | .error e => .error e
    | .ok (s', r') => processMembers gid s' r' ms

/-- Lines 186–215, the body of `for idx, group_name in enumerate(...)`:
resolve the name (a falsy result — `None` or an empty dict — is skipped
with `continue`), fetch the members by `group_info['id']` (KeyError when
absent), register the group record itself, re-read the registered group
object and run the member loop against it. -/
def processGroup (env : TransportEnv) (s : GraphSyncObject) (r : Option Entity)
    (name : String) : Except RunError (GraphSyncObject × Option Entity) :=
  match get_group_by_name env name with
  | none => .ok (s, r)
  | some gi =>
    if gi = [] then .ok (s, r)
    else
      match alook gi "id" with
      | none => .error (.keyError "id")
      | some gidv =>
        let ms := env.membersOf gidv
        match _register_group s gi with
        | .error e => .error e
        | .ok (_, s1) =>
          match gidv with
          | JVal.str gs =>
            match alook s1.groups gs with
            | none => .error (.keyError gs)
            | some _ => processMembers gs s1 r ms
          | _ => .error (.keyError "id")

/-- The group loop, threading the state and `r` across groups. -/
def syncGo (env : TransportEnv) :
    GraphSyncObject → Option Entity → List String →
    Except RunError GraphSyncObject
  | s, _, [] => .ok s
  | s, r, name :: rest =>
    match processGroup env s r name with
    | .error e => .error e
    | .ok (s', r') => syncGo env s' r' rest

/-- Lines 144–222, `get_objects_for_sync(group_names)`: start from an
empty `GraphSyncObject`, run the group loop, return the aggregate (or
let the first uncaught exception abort the run). -/
def get_objects_for_sync (env : TransportEnv) (group_names : List String) :
    Except RunError GraphSyncObject :=
  syncGo env {} none group_names

/-! Invariant predicates over the aggregate, used to state the linkage
claim. -/

/-- The reference stored in a `members` dict points at an object that is
actually registered in the mapping of its kind. -/
def refOk (g : GraphSyncObject) (ref : MemberRef) : Prop :=
  match ref.kind with
  | .user => ∃ u, alook g.users ref.id = some u
  | .servicePrincipal => ∃ p, alook g.service_principals ref.id = some p
  | .group => ∃ gr, alook g.groups ref.id = some gr

/-- Every key of an entity mapping equals the `id` of the object
registered under it. -/
def keyMatches (g : GraphSyncObject) : Prop :=
  (∀ k u, alook g.users k = some u → GraphUser.id u = k) ∧
  (∀ k p, alook g.service_principals k = some p → GraphServicePrincipal.id p = k) ∧
  (∀ k gr, alook g.groups k = some gr → GraphGroup.id gr = k)

/-- Every `members` entry of every registered group is keyed by the id of
the object it references, and that object is registered. -/
def membersOk (g : GraphSyncObject) : Prop :=
  ∀ gk grp, alook g.groups gk = some grp →
    ∀ k ref, (k, ref) ∈ grp.members → ref.id = k ∧ refOk g ref

/-- The loop variable `r`, when bound, references a registered object. -/
def rOk (g : GraphSyncObject) : Option Entity → Prop
  | none => True
  | some e => refOk g e.ref

/-- The traversal invariant. -/
def Inv (g : GraphSyncObject) (r : Option Entity) : Prop :=
  keyMatches g ∧ membersOk g ∧ rOk g r

/-- The raw group ids whose member lists the traversal fetches: exactly
the `group_info['id']` of each input name that resolves to a single,
non-falsy group record. -/
def resolvedIds (env : TransportEnv) (names : List String) : List JVal :=
  names.filterMap (fun n =>
    match get_group_by_name env n with
    | none => none
    | some gi => if gi = [] then none else alook gi "id")

/-! Concrete fixtures for the evaluated runs and the witnesses. -/

/-- A well-formed raw user member record. -/
def userRec (i dn ml : String) : RawRecord :=
  [("@odata.type", JVal.str "#microsoft.graph.user"), ("id", JVal.str i),
   ("displayName", JVal.str dn), ("mail", JVal.str ml)]

/-- A raw group descriptor as returned by the name lookup
(`$select=id,displayName`). -/
def groupInfoRec (i dn : String) : RawRecord :=
  [("id", JVal.str i), ("displayName", JVal.str dn)]

/-- Spec scenario for error isolation: one group of three members whose
second member is malformed (it carries only `@odata.type` and `id`, so
`displayName` and `mail` are missing). -/
def env1 : TransportEnv :=
  { groupsByName := fun n =>
      if n = "G" then some [groupInfoRec "g1" "Group One"] else none
  , membersOf := fun v =>
      if v = JVal.str "g1" then
        [userRec "u1" "User One" "u1@x",
         [("@odata.type", JVal.str "#microsoft.graph.user"), ("id", JVal.str "u2")],
         userRec "u3" "User Three" "u3@x"]
      else [] }

/-- First-call record for the idempotent-registration witness. -/
def c2d1 : RawRecord :=
  [("id", JVal.str "u1"), ("displayName", JVal.str "User One"),
   ("mail", JVal.str "u1@x")]

/-- Second-call record for the same id: a different, malformed record
(no `displayName`, no `mail`) that would fail validation if validated. -/
def c2d2 : RawRecord := [("id", JVal.str "u1")]

/-- The entity the first registration stores and returns. -/
def c2u : GraphUser := ⟨"u1", "User One", "u1@x", true⟩

/-- The aggregate after the first registration. -/
def c2s1 : GraphSyncObject := { users := [("u1", c2u)] }

/-- Not-found-skip witness environment: name `A` resolves to zero groups,
name `B` to a single group with one member. -/
def env3 : TransportEnv :=
  { groupsByName := fun n =>
      if n = "A" then some []
      else if n = "B" then some [groupInfoRec "gb" "Group B"] else none
  , membersOf := fun v =>
      if v = JVal.str "gb" then [userRec "u1" "User One" "u1@x"] else [] }

/-- Fallback-mail witness record: `mail` is present but explicitly
`null`; the alias `mailNickname` carries the value. -/
def d4 : RawRecord :=
  [("id", JVal.str "u9"), ("displayName", JVal.str "User Nine"),
   ("mail", JVal.null), ("mailNickname", JVal.str "nick9")]

/-- Default-activation witness records: `accountEnabled` absent. -/
def d5u : RawRecord :=
  [("id", JVal.str "u5"), ("displayName", JVal.str "User Five"),
   ("mail", JVal.str "u5@x")]

/-- Service-principal record omitting `accountEnabled`. -/
def d5p : RawRecord :=
  [("id", JVal.str "p5"), ("displayName", JVal.str "SP Five"),
   ("appId", JVal.str "app5")]

/-- Group-linkage witness environment: one group with one user member. -/
def env6 : TransportEnv :=
  { groupsByName := fun n =>
      if n = "G" then some [groupInfoRec "g1" "Group One"] else none
  , membersOf := fun v =>
      if v = JVal.str "g1" then [userRec "u1" "User One" "u1@x"] else [] }

/-- The group object of the completed `env6` run. -/
def grp6 : GraphGroup := ⟨"g1", "Group One", [("u1", ⟨EntityKind.user, "u1"⟩)]⟩

/-- The aggregate of the completed `env6` run. -/
def g6 : GraphSyncObject :=
  { users := [("u1", ⟨"u1", "User One", "u1@x", true⟩)], groups := [("g1", grp6)] }

/-- A group appearing as a member of another group. -/
def nestedGroupMemberRec : RawRecord :=
  [("@odata.type", JVal.str "#microsoft.graph.group"), ("id", JVal.str "nested"),
   ("displayName", JVal.str "Nested Group")]

/-- Non-recursion witness environment: the only requested group contains
a nested group; the transport also knows members for the nested group. -/
def env7 : TransportEnv :=
  { groupsByName := fun n =>
      if n = "G" then some [groupInfoRec "g1" "Group One"] else none
  , membersOf := fun v =>
      if v = JVal.str "g1" then [nestedGroupMemberRec]
      else if v = JVal.str "nested" then [userRec "zz" "Zed" "z@x"] else [] }

/-- The same environment with a different member list for the nested
group: the run cannot tell them apart. -/
def env7b : TransportEnv :=
  { env7 with membersOf := fun v =>
      if v = JVal.str "g1" then [nestedGroupMemberRec]
      else if v = JVal.str "nested" then [userRec "ww" "Double U" "w@x"] else [] }

/-- Stale-loop-variable environment: group `G1` holds a user, group `G2`
holds a single member of unrecognized type (`#microsoft.graph.device`). -/
def env8a : TransportEnv :=
  { groupsByName := fun n =>
      if n = "G1" then some [groupInfoRec "g1" "G1"]
      else if n = "G2" then some [groupInfoRec "g2" "G2"] else none
  , membersOf := fun v =>
      if v = JVal.str "g1" then [userRec "u1" "User One" "u1@x"]
      else if v = JVal.str "g2" then
        [[("@odata.type", JVal.str "#microsoft.graph.device"), ("id", JVal.str "d1")]]
      else [] }

/-- The completed `env8a` run: the user from `G1` is inserted into the
`members` of `G2` in place of the unrecognized device record. -/
def expected8a : GraphSyncObject :=
  { users := [("u1", ⟨"u1", "User One", "u1@x", true⟩)]
  , groups := [("g1", ⟨"g1", "G1", [("u1", ⟨EntityKind.user, "u1"⟩)]⟩),
               ("g2", ⟨"g2", "G2", [("u1", ⟨EntityKind.user, "u1"⟩)]⟩)] }

/-- The very first processed member has an unrecognized type: `r` is
read while still unbound. -/
def env8b : TransportEnv :=
  { groupsByName := fun n =>
      if n = "G" then some [groupInfoRec "g1" "G1"] else none
  , membersOf := fun v =>
      if v = JVal.str "g1" then
        [[("@odata.type", JVal.str "#microsoft.graph.device"), ("id", JVal.str "d1")]]
      else [] }

/-- A member record with no `@odata.type` key at all. -/
def env9 : TransportEnv :=
  { groupsByName := fun n =>
      if n = "G" then some [groupInfoRec "g1" "G1"] else none
  , membersOf := fun v =>
      if v = JVal.str "g1" then
        [[("id", JVal.str "u1"), ("displayName", JVal.str "U"), ("mail", JVal.str "m")]]
      else [] }

/-- A recognized user member record with no `id` key. -/
def env9b : TransportEnv :=
  { groupsByName := fun n =>
      if n = "G" then some [groupInfoRec "g1" "G1"] else none
  , membersOf := fun v =>
      if v = JVal.str "g1" then
        [[("@odata.type", JVal.str "#microsoft.graph.user"), ("displayName", JVal.str "U")]]
      else [] }

/-- Explicit-null `accountEnabled` witness record. -/
def d10 : RawRecord :=
  [("id", JVal.str "u0"), ("displayName", JVal.str "User Zero"),
   ("mail", JVal.str "u0@x"), ("accountEnabled", JVal.null)]

/-! Association-list (Python dict) lemmas. -/

theorem alook_aset_self {α : Type} (m : List (String × α)) (k : String) (v : α) :
    alook (aset m k v) k = some v := by
  induction m with
  | nil => simp [aset, alook]
  | cons p rest ih =>
    obtain ⟨k', v'⟩ := p
    by_cases h : k' = k
    · simp [aset, alook, h]
    · simp [aset, alook, h, ih]

theorem alook_aset_ne {α : Type} (m : List (String × α)) (k k' : String) (v : α)
    (h : k' ≠ k) : alook (aset m k v) k' = alook m k' := by
  induction m with
  | nil => simp [aset, alook, Ne.symm h]
  | cons p rest ih =>
    obtain ⟨k₁, v₁⟩ := p
    by_cases hk : k₁ = k
    · subst hk
      simp [aset, alook, Ne.symm h]
    · simp [aset, alook, hk, ih]

theorem alook_aset_isSome {α : Type} {m : List (String × α)} {k' : String}
    (k : String) (v : α) (h : ∃ x, alook m k' = some x) :
    ∃ y, alook (aset m k v) k' = some y := by
  by_cases hk : k' = k
  · subst hk
    exact ⟨v, alook_aset_self m k' v⟩
  · obtain ⟨x, hx⟩ := h
    exact ⟨x, by rw [alook_aset_ne m k k' v hk, hx]⟩

theorem mem_aset {α : Type} {m : List (String × α)} {k : String} {v : α}
    {x : String × α} (h : x ∈ aset m k v) : x = (k, v) ∨ x ∈ m := by
  induction m with
  | nil => simpa [aset] using h
  | cons p rest ih =>
    obtain ⟨k₁, v₁⟩ := p
    by_cases hk : k₁ = k
    · simp [aset, hk] at h
      rcases h with h | h
      · exact Or.inl (by simp [h])
      · exact Or.inr (by simp [h])
    · simp [aset, hk] at h
      rcases h with h | h
      · exact Or.inr (by simp [h])
      · rcases ih h with h' | h'
        · exact Or.inl h'
        · exact Or.inr (by simp [h'])

theorem alook_not_mem {α : Type} {m : List (String × α)} {k : String}
    (h : k ∉ m.map Prod.fst) : alook m k = none := by
  induction m with
  | nil => simp [alook]
  | cons p rest ih =>
    obtain ⟨k₁, v₁⟩ := p
    simp only [List.map_cons, List.mem_cons] at h
    push_neg at h
    simp [alook, Ne.symm h.1, ih h.2]

theorem alook_filter_none {α : Type} {m : List (String × α)} {k : String}
    (p : String × α → Bool) (h : alook m k = none) :
    alook (m.filter p) k = none := by
  induction m with
  | nil => simp [alook]
  | cons q rest ih =>
    obtain ⟨k₁, v₁⟩ := q
    by_cases hk : k₁ = k
    · subst hk
      simp [alook] at h
    · simp only [alook, if_neg hk] at h
      cases hp : p (k₁, v₁) <;> simp [List.filter_cons, hp, alook, hk, ih h]

/-! Null-stripping lemmas (line 201). -/

theorem alook_stripNulls_of_some {d : RawRecord} {k : String} {v : JVal}
    (h : alook d k = some v) (hv : v ≠ JVal.null) :
    alook (stripNulls d) k = some v := by
  induction d with
  | nil => simp [alook] at h
  | cons q rest ih =>
    obtain ⟨k₁, v₁⟩ := q
    by_cases hk : k₁ = k
    · subst hk
      simp only [alook, if_pos rfl] at h
      cases h
      simp [stripNulls, List.filter_cons, hv, alook]
    · simp only [alook, if_neg hk] at h
      by_cases hv₁ : v₁ = JVal.null
      · subst hv₁
        simpa [stripNulls, List.filter_cons] using ih h
      · simpa [stripNulls, List.filter_cons, hv₁, alook, hk] using ih h

theorem alook_stripNulls_of_none {d : RawRecord} {k : String}
    (h : alook d k = none) : alook (stripNulls d) k = none :=
  alook_filter_none _ h

theorem alook_stripNulls_of_null {d : RawRecord} {k : String}
    (hwf : RawRecord.WF d) (h : alook d k = some JVal.null) :
    alook (stripNulls d) k = none := by
  induction d with
  | nil => simp [alook] at h
  | cons q rest ih =>
    obtain ⟨k₁, v₁⟩ := q
    rw [RawRecord.WF, List.map_cons, List.nodup_cons] at hwf
    obtain ⟨hnot, hrest⟩ := hwf
    by_cases hk : k₁ = k
    · subst hk
      simp only [alook, if_pos rfl] at h
      cases h
      simp only [stripNulls, List.filter_cons]
      simp only [beq_self_eq_true, Bool.not_true, if_neg]
      exact alook_filter_none _ (alook_not_mem hnot)
    · simp only [alook, if_neg hk] at h
      by_cases hv₁ : v₁ = JVal.null
      · subst hv₁
        simpa [stripNulls, List.filter_cons] using ih hrest h
      · simpa [stripNulls, List.filter_cons, hv₁, alook, hk] using ih hrest h

/-! Alias-resolution and validation lemmas. -/

theorem resolveAlias_single (d : RawRecord) (a : String) :
    resolveAlias d [a] = alook d a := by
  cases h : alook d a <;> simp [resolveAlias, h]

theorem resolveAlias_cons_none {d : RawRecord} {a : String}
    (rest : List String) (h : alook d a = none) :
    resolveAlias d (a :: rest) = resolveAlias d rest := by
  simp [resolveAlias, h]

theorem reqStr_ok {d : RawRecord} {as : List String} {f s : String}
    (h : reqStr d as f = .ok s) : resolveAlias d as = some (JVal.str s) := by
  rw [reqStr] at h
  cases hv : resolveAlias d as <;> rw [hv] at h
  · simp at h
  · case some v =>
    cases v with
    | null => simp at h
    | str s' => injection h with h'; rw [h']
    | bool b => simp at h

theorem reqStr_single_ok {d : RawRecord} {a f s : String}
    (h : reqStr d [a] f = .ok s) : alook d a = some (JVal.str s) := by
  have hv := reqStr_ok h
  rwa [resolveAlias_single] at hv

theorem optBool_none {d : RawRecord} {a : String} (f : String) (dflt : Bool)
    (h : alook d a = none) : optBool d [a] f dflt = .ok dflt := by
  simp [optBool, resolveAlias_single, h]

theorem user_validate_ok_inv {d : RawRecord} {u : GraphUser}
    (h : GraphUser.model_validate d = .ok u) :
    reqStr d ["id"] "id" = .ok u.id ∧
    reqStr d ["displayName"] "display_name" = .ok u.display_name ∧
    reqStr d ["mail", "mailNickname"] "mail" = .ok u.mail ∧
    optBool d ["accountEnabled"] "active" true = .ok u.active := by
  unfold GraphUser.model_validate at h
  cases h1 : reqStr d ["id"] "id" <;> rw [h1] at h
  case error => simp at h
  cases h2 : reqStr d ["displayName"] "display_name" <;> rw [h2] at h
  case error => simp at h
  cases h3 : reqStr d ["mail", "mailNickname"] "mail" <;> rw [h3] at h
  case error => simp at h
  cases h4 : optBool d ["accountEnabled"] "active" true <;> rw [h4] at h
  case error => simp at h
  injection h with h'
  subst h'
  exact ⟨rfl, rfl, rfl, rfl⟩

theorem sp_validate_ok_inv {d : RawRecord}
    {p : GraphServicePrincipal}
    (h : GraphServicePrincipal.model_validate d = .ok p) :
    reqStr d ["id"] "id" = .ok p.id ∧
    reqStr d ["displayName"] "display_name" = .ok p.display_name ∧
    reqStr d ["appId"] "application_id" = .ok p.application_id ∧
    optBool d ["accountEnabled"] "active" true = .ok p.active := by
  unfold GraphServicePrincipal.model_validate at h
  cases h1 : reqStr d ["id"] "id" <;> rw [h1] at h
  case error => simp at h
  cases h2 : reqStr d ["displayName"] "display_name" <;> rw [h2] at h
  case error => simp at h
  cases h3 : reqStr d ["appId"] "application_id" <;> rw [h3] at h
  case error => simp at h
  cases h4 : optBool d ["accountEnabled"] "active" true <;> rw [h4] at h
  case error => simp at h
  injection h with h'
  subst h'
  exact ⟨rfl, rfl, rfl, rfl⟩

theorem group_validate_ok_inv {d : RawRecord} {g : GraphGroup}
    (h : GraphGroup.model_validate d = .ok g) :
    reqStr d ["id"] "id" = .ok g.id ∧
    reqStr d ["displayName"] "display_name" = .ok g.display_name ∧
    g.members = [] := by
  unfold GraphGroup.model_validate at h
  cases h1 : reqStr d ["id"] "id" <;> rw [h1] at h
  case error => simp at h
  cases h2 : reqStr d ["displayName"] "display_name" <;> rw [h2] at h
  case error => simp at h
  cases h3 : alook d "members" <;> rw [h3] at h
  case some => simp at h
  injection h with h'
  subst h'
  exact ⟨rfl, rfl, rfl⟩

theorem user_validate_ok_id {d : RawRecord} {u : GraphUser}
    (h : GraphUser.model_validate d = .ok u) :
    alook d "id" = some (JVal.str u.id) :=
  reqStr_single_ok (user_validate_ok_inv h).1

theorem sp_validate_ok_id {d : RawRecord}
    {p : GraphServicePrincipal}
    (h : GraphServicePrincipal.model_validate d = .ok p) :
    alook d "id" = some (JVal.str p.id) :=
  reqStr_single_ok (sp_validate_ok_inv h).1

theorem group_validate_ok_id {d : RawRecord} {g : GraphGroup}
    (h : GraphGroup.model_validate d = .ok g) :
    alook d "id" = some (JVal.str g.id) :=
  reqStr_single_ok (group_validate_ok_inv h).1

theorem user_validate_active_default {d : RawRecord} {u : GraphUser}
    (hae : alook d "accountEnabled" = none)
    (h : GraphUser.model_validate d = .ok u) : u.active = true := by
  have h4 := (user_validate_ok_inv h).2.2.2
  rw [optBool_none "active" true hae] at h4
  injection h4 with h'
  exact h'.symm

theorem sp_validate_active_default {d : RawRecord}
    {p : GraphServicePrincipal} (hae : alook d "accountEnabled" = none)
    (h : GraphServicePrincipal.model_validate d = .ok p) : p.active = true := by
  have h4 := (sp_validate_ok_inv h).2.2.2
  rw [optBool_none "active" true hae] at h4
  injection h4 with h'
  exact h'.symm

/-! Registration-routine lemmas: forward evaluation equations and an
inversion principle for each of the three `_register_*` helpers. -/

theorem _register_user_cached {s : GraphSyncObject} {d : RawRecord} {idv : JVal}
    {u : GraphUser} (h1 : alook d "id" = some idv)
    (h2 : jlook s.users idv = some u) : _register_user s d = .ok (u, s) := by
  simp only [_register_user, h1, h2]

theorem _register_service_principal_cached {s : GraphSyncObject} {d : RawRecord}
    {idv : JVal} {p : GraphServicePrincipal} (h1 : alook d "id" = some idv)
    (h2 : jlook s.service_principals idv = some p) :
    _register_service_principal s d = .ok (p, s) := by
  simp only [_register_service_principal, h1, h2]

theorem _register_group_cached {s : GraphSyncObject} {d : RawRecord} {idv : JVal}
    {g : GraphGroup} (h1 : alook d "id" = some idv)
    (h2 : jlook s.groups idv = some g) : _register_group s d = .ok (g, s) := by
  simp only [_register_group, h1, h2]

theorem _register_user_ok_inv {s : GraphSyncObject} {d : RawRecord}
    {u : GraphUser} {s1 : GraphSyncObject}
    (h : _register_user s d = .ok (u, s1)) :
    ∃ idv, alook d "id" = some idv ∧
      ((jlook s.users idv = some u ∧ s1 = s) ∨
       (jlook s.users idv = none ∧ GraphUser.model_validate d = .ok u ∧
        s1 = { s with users := aset s.users u.id u })) := by
  unfold _register_user at h
  split at h
  · exact absurd h (by simp)
  next idv h1 =>
    refine ⟨idv, h1, ?_⟩
    split at h
    next u0 h2 =>
      obtain ⟨rfl, rfl⟩ : u0 = u ∧ s = s1 := by simpa using h
      exact Or.inl ⟨h2, rfl⟩
    next h2 =>
      split at h
      · exact absurd h (by simp)
      next obj h3 =>
        obtain ⟨rfl, rfl⟩ : obj = u ∧ { s with users := aset s.users obj.id obj } = s1 := by
          simpa using h
        exact Or.inr ⟨h2, h3, rfl⟩

theorem _register_service_principal_ok_inv {s : GraphSyncObject} {d : RawRecord}
    {p : GraphServicePrincipal} {s1 : GraphSyncObject}
    (h : _register_service_principal s d = .ok (p, s1)) :
    ∃ idv, alook d "id" = some idv ∧
      ((jlook s.service_principals idv = some p ∧ s1 = s) ∨
       (jlook s.service_principals idv = none ∧
        GraphServicePrincipal.model_validate d = .ok p ∧
        s1 = { s with service_principals := aset s.service_principals p.id p })) := by
  unfold _register_service_principal at h
  split at h
  · exact absurd h (by simp)
  next idv h1 =>
    refine ⟨idv, h1, ?_⟩
    split at h
    next p0 h2 =>
      obtain ⟨rfl, rfl⟩ : p0 = p ∧ s = s1 := by simpa using h
      exact Or.inl ⟨h2, rfl⟩
    next h2 =>
      split at h
      · exact absurd h (by simp)
      next obj h3 =>
        obtain ⟨rfl, rfl⟩ :
            obj = p ∧ { s with service_principals := aset s.service_principals obj.id obj } = s1 := by
          simpa using h
        exact Or.inr ⟨h2, h3, rfl⟩

theorem _register_group_ok_inv {s : GraphSyncObject} {d : RawRecord}
    {g : GraphGroup} {s1 : GraphSyncObject}
    (h : _register_group s d = .ok (g, s1)) :
    ∃ idv, alook d "id" = some idv ∧
      ((jlook s.groups idv = some g ∧ s1 = s) ∨
       (jlook s.groups idv = none ∧ GraphGroup.model_validate d = .ok g ∧
        s1 = { s with groups := aset s.groups g.id g })) := by
  unfold _register_group at h
  split at h
  · exact absurd h (by simp)
  next idv h1 =>
    refine ⟨idv, h1, ?_⟩
    split at h
    next g0 h2 =>
      obtain ⟨rfl, rfl⟩ : g0 = g ∧ s = s1 := by simpa using h
      exact Or.inl ⟨h2, rfl⟩
    next h2 =>
      split at h
      · exact absurd h (by simp)
      next obj h3 =>
        obtain ⟨rfl, rfl⟩ : obj = g ∧ { s with groups := aset s.groups obj.id obj } = s1 := by
          simpa using h
        exact Or.inr ⟨h2, h3, rfl⟩

/-! Claim theorems. -/

/-- Claim C2: for every identifier and every entity kind, registering a
second raw record with the same `id` after a successful first
registration returns the same cached entity and leaves the aggregate
unchanged; the second record is never validated — the second call's
result does not depend on any field of the second record other than
`id`, so even an invalid second record succeeds. -/
theorem c2_idempotent_registration :
    (∀ s d1 d2 u s1, _register_user s d1 = .ok (u, s1) →
       alook d2 "id" = alook d1 "id" → _register_user s1 d2 = .ok (u, s1)) ∧
    (∀ s d1 d2 p s1, _register_service_principal s d1 = .ok (p, s1) →
       alook d2 "id" = alook d1 "id" →
       _register_service_principal s1 d2 = .ok (p, s1)) ∧
    (∀ s d1 d2 g s1, _register_group s d1 = .ok (g, s1) →
       alook d2 "id" = alook d1 "id" → _register_group s1 d2 = .ok (g, s1)) := by
  refine ⟨?_, ?_, ?_⟩
  · intro s d1 d2 u s1 h hid
    obtain ⟨idv, h1, hcase⟩ := _register_user_ok_inv h
    rw [h1] at hid
    rcases hcase with ⟨h2, rfl⟩ | ⟨h2, h3, rfl⟩
    · exact _register_user_cached hid h2
    · have hidv : idv = JVal.str u.id := by
        have hh := user_validate_ok_id h3
        rw [h1] at hh
        simpa using hh
      subst hidv
      exact _register_user_cached hid (by simp [jlook, alook_aset_self])
  · intro s d1 d2 p s1 h hid
    obtain ⟨idv, h1, hcase⟩ := _register_service_principal_ok_inv h
    rw [h1] at hid
    rcases hcase with ⟨h2, rfl⟩ | ⟨h2, h3, rfl⟩
    · exact _register_service_principal_cached hid h2
    · have hidv : idv = JVal.str p.id := by
        have hh := sp_validate_ok_id h3
        rw [h1] at hh
        simpa using hh
      subst hidv
      exact _register_service_principal_cached hid (by simp [jlook, alook_aset_self])
  · intro s d1 d2 g s1 h hid
    obtain ⟨idv, h1, hcase⟩ := _register_group_ok_inv h
    rw [h1] at hid
    rcases hcase with ⟨h2, rfl⟩ | ⟨h2, h3, rfl⟩
    · exact _register_group_cached hid h2
    · have hidv : idv = JVal.str g.id := by
        have hh := group_validate_ok_id h3
        rw [h1] at hh
        simpa using hh
      subst hidv
      exact _register_group_cached hid (by simp [jlook, alook_aset_self])

/-- Concrete instance of the idempotent-registration claim: the second,
malformed record `c2d2` shares the id of `c2d1` and the second call
returns the cached entity with the aggregate unchanged. -/
theorem c2_idempotent_registration_witness :
    _register_user {} c2d1 = .ok (c2u, c2s1) ∧
    _register_user c2s1 c2d2 = .ok (c2u, c2s1) :=
  ⟨rfl, c2_idempotent_registration.1 {} c2d1 c2d2 c2u c2s1 rfl rfl⟩

/-- Claim C4: a user member record that, after null-stripping, lacks the
primary `mail` field but carries the alias `mailNickname` validates with
`mail` equal to the alias value; and because stripping happens before
validation, a record whose `mail` is explicitly `null` (not merely
absent) also resolves through the alias instead of failing on the
primary field. -/
theorem c4_mail_alias_fallback :
    (∀ d v u, alook (stripNulls d) "mail" = none →
       alook (stripNulls d) "mailNickname" = some (JVal.str v) →
       GraphUser.model_validate (stripNulls d) = .ok u → u.mail = v) ∧
    (∀ d i n v, RawRecord.WF d →
       alook d "id" = some (JVal.str i) →
       alook d "displayName" = some (JVal.str n) →
       (alook d "mail" = none ∨ alook d "mail" = some JVal.null) →
       alook d "mailNickname" = some (JVal.str v) →
       alook d "accountEnabled" = none →
       GraphUser.model_validate (stripNulls d) = .ok ⟨i, n, v, true⟩) := by
  constructor
  · intro d v u hmail hnick h
    have hml := reqStr_ok (user_validate_ok_inv h).2.2.1
    rw [resolveAlias_cons_none _ hmail, resolveAlias_single, hnick] at hml
    injection hml with h'
    cases h'
    rfl
  · intro d i n v hwf hid hdn hmail hnick hae
    have hid' : alook (stripNulls d) "id" = some (JVal.str i) :=
      alook_stripNulls_of_some hid (by simp)
    have hdn' : alook (stripNulls d) "displayName" = some (JVal.str n) :=
      alook_stripNulls_of_some hdn (by simp)
    have hmail' : alook (stripNulls d) "mail" = none := by
      rcases hmail with h | h
      · exact alook_stripNulls_of_none h
      · exact alook_stripNulls_of_null hwf h
    have hnick' : alook (stripNulls d) "mailNickname" = some (JVal.str v) :=
      alook_stripNulls_of_some hnick (by simp)
    have hae' : alook (stripNulls d) "accountEnabled" = none :=
      alook_stripNulls_of_none hae
    simp only [GraphUser.model_validate, reqStr, optBool, resolveAlias,
      hid', hdn', hmail', hnick', hae']

/-- Concrete instance of the fallback claim: `d4` carries an explicitly
null `mail` and the alias value `nick9`; validation succeeds with
`mail = "nick9"`. -/
theorem c4_mail_alias_fallback_witness :
    GraphUser.model_validate (stripNulls d4) = .ok ⟨"u9", "User Nine", "nick9", true⟩ ∧
    (⟨"u9", "User Nine", "nick9", true⟩ : GraphUser).mail = "nick9" :=
  ⟨c4_mail_alias_fallback.2 d4 "u9" "User Nine" "nick9" (by unfold RawRecord.WF; decide) rfl rfl
      (Or.inr rfl) rfl rfl,
   c4_mail_alias_fallback.1 d4 "nick9" ⟨"u9", "User Nine", "nick9", true⟩ rfl rfl rfl⟩

/-- Claim C5: a user or service-principal record that omits
`accountEnabled` entirely validates successfully (given the other
required fields) and the resulting entity has `active = true`. -/
theorem c5_default_active :
    (∀ d i n ml, alook d "id" = some (JVal.str i) →
       alook d "displayName" = some (JVal.str n) →
       alook d "mail" = some (JVal.str ml) →
       alook d "accountEnabled" = none →
       GraphUser.model_validate d = .ok ⟨i, n, ml, true⟩) ∧
    (∀ d i n ap, alook d "id" = some (JVal.str i) →
       alook d "displayName" = some (JVal.str n) →
       alook d "appId" = some (JVal.str ap) →
       alook d "accountEnabled" = none →
       GraphServicePrincipal.model_validate d = .ok ⟨i, n, ap, true⟩) := by
  constructor
  · intro d i n ml hid hdn hml hae
    simp only [GraphUser.model_validate, reqStr, optBool, resolveAlias,
      hid, hdn, hml, hae]
  · intro d i n ap hid hdn hap hae
    simp only [GraphServicePrincipal.model_validate, reqStr, optBool, resolveAlias,
      hid, hdn, hap, hae]

/-- Concrete instance of the default-activation claim for both kinds. -/
theorem c5_default_active_witness :
    GraphUser.model_validate d5u = .ok ⟨"u5", "User Five", "u5@x", true⟩ ∧
    GraphServicePrincipal.model_validate d5p = .ok ⟨"p5", "SP Five", "app5", true⟩ :=
  ⟨c5_default_active.1 d5u "u5" "User Five" "u5@x" rfl rfl rfl rfl,
   c5_default_active.2 d5p "p5" "SP Five" "app5" rfl rfl rfl rfl⟩

/-- Claim C10: an `accountEnabled` field that is present but `null` is
removed by the stripping step, so validation treats it as absent and the
default `active = true` applies — for users and service principals
alike. -/
theorem c10_null_flag_defaults_active (d : RawRecord) (hwf : RawRecord.WF d)
    (hae : alook d "accountEnabled" = some JVal.null) :
    alook (stripNulls d) "accountEnabled" = none ∧
    (∀ u, GraphUser.model_validate (stripNulls d) = .ok u → u.active = true) ∧
    (∀ p, GraphServicePrincipal.model_validate (stripNulls d) = .ok p →
       p.active = true) := by
  have hs : alook (stripNulls d) "accountEnabled" = none :=
    alook_stripNulls_of_null hwf hae
  exact ⟨hs, fun u hu => user_validate_active_default hs hu,
    fun p hp => sp_validate_active_default hs hp⟩

/-- Concrete instance of the null-flag claim on `d10`. -/
theorem c10_null_flag_defaults_active_witness :
    alook (stripNulls d10) "accountEnabled" = none ∧
    GraphUser.model_validate (stripNulls d10) = .ok ⟨"u0", "User Zero", "u0@x", true⟩ ∧
    (⟨"u0", "User Zero", "u0@x", true⟩ : GraphUser).active = true :=
  ⟨(c10_null_flag_defaults_active d10 (by unfold RawRecord.WF; decide) rfl).1, rfl,
   (c10_null_flag_defaults_active d10 (by unfold RawRecord.WF; decide) rfl).2.1 _ rfl⟩

/-- Claim C1 (refuted — code bug): the spec requires a member record
that fails validation to be appended to the error list, with processing
continuing and the validation error never escaping the per-member step;
in the code the `_register_*` helpers re-raise the exception
(`raise e`, line 156) and the member loop installs no handler, so the
append at lines 212–213 is dead code and the first invalid member
aborts the whole run: on the spec's own three-member scenario (second
member malformed) the traversal returns no aggregate at all — in
particular not one with two members and one recorded error. -/
theorem c1_validation_error_aborts_run :
    get_objects_for_sync env1 ["G"] =
      .error (RunError.validation (ValidationError.missing "display_name")) := rfl

/-- Claim C3: a requested name that resolves to zero groups or to more
than one group is skipped — the aggregate and the loop variable are
untouched and the remaining names produce exactly the result they would
produce with the unresolved name absent; in particular no group, user,
service-principal, or error entry is added for that name, as in the
`["A", "B"]` example. -/
theorem c3_unresolved_name_skipped (env : TransportEnv) (name : String)
    (h : env.groupsByName name = none ∨
         ∃ data, env.groupsByName name = some data ∧ data.length ≠ 1) :
    (∀ s r rest, syncGo env s r (name :: rest) = syncGo env s r rest) ∧
    (∀ rest, get_objects_for_sync env (name :: rest) = get_objects_for_sync env rest) := by
  have hlookup : get_group_by_name env name = none := by
    rcases h with h | ⟨data, hd, hlen⟩
    · simp [get_group_by_name, h]
    · simp [get_group_by_name, hd, hlen]
  have hskip : ∀ s r, processGroup env s r name = .ok (s, r) := by
    intro s r
    simp [processGroup, hlookup]
  refine ⟨?_, ?_⟩
  · intro s r rest
    simp [syncGo, hskip]
  · intro rest
    simp [get_objects_for_sync, syncGo, hskip]

/-- Concrete instance of the skip claim: name `A` resolves to zero
groups, so the run over `["A", "B"]` equals the run over `["B"]`. -/
theorem c3_unresolved_name_skipped_witness :
    get_objects_for_sync env3 ["A", "B"] = get_objects_for_sync env3 ["B"] :=
  (c3_unresolved_name_skipped env3 "A" (Or.inr ⟨[], rfl, by decide⟩)).2 ["B"]

/-- Claim C8: a member whose `@odata.type` matches none of the three
recognized discriminants leaves the loop variable `r` at its previous
value: if some member was registered earlier — possibly in an earlier
group — that stale entity is inserted into the current group's members;
if no member was processed before, the run aborts with `NameError`.
The `env8a` run exhibits the cross-group reuse (the user of `G1`
appears in the members of `G2`), the `env8b` run the abort. -/
theorem c8_stale_loop_variable :
    (∀ s e gid m0 t, alook (stripNulls m0) "@odata.type" = some t →
       t ≠ JVal.str "#microsoft.graph.user" →
       t ≠ JVal.str "#microsoft.graph.servicePrincipal" →
       t ≠ JVal.str "#microsoft.graph.group" →
       processMember s (some e) gid m0 = .ok (addMember s gid e, some e)) ∧
    (∀ s gid m0 t, alook (stripNulls m0) "@odata.type" = some t →
       t ≠ JVal.str "#microsoft.graph.user" →
       t ≠ JVal.str "#microsoft.graph.servicePrincipal" →
       t ≠ JVal.str "#microsoft.graph.group" →
       processMember s none gid m0 = .error RunError.nameError) ∧
    get_objects_for_sync env8a ["G1", "G2"] = .ok expected8a ∧
    get_objects_for_sync env8b ["G"] = .error RunError.nameError := by
  refine ⟨?_, ?_, rfl, rfl⟩
  · intro s e gid m0 t h h1 h2 h3
    simp only [processMember, registerDispatch, h, if_neg h1, if_neg h2, if_neg h3]
  · intro s gid m0 t h h1 h2 h3
    simp only [processMember, registerDispatch, h, if_neg h1, if_neg h2, if_neg h3]

/-- Concrete instance of the stale-reuse step: a device-typed member
inserts the previously registered entity. -/
theorem c8_stale_loop_variable_witness :
    processMember {} (some (Entity.user ⟨"u1", "U", "m", true⟩)) "g1"
        [("@odata.type", JVal.str "#microsoft.graph.device")] =
      .ok (addMember {} "g1" (Entity.user ⟨"u1", "U", "m", true⟩),
           some (Entity.user ⟨"u1", "U", "m", true⟩)) :=
  c8_stale_loop_variable.1 {} (Entity.user ⟨"u1", "U", "m", true⟩) "g1"
    [("@odata.type", JVal.str "#microsoft.graph.device")]
    (JVal.str "#microsoft.graph.device") rfl (by decide) (by decide) (by decide)

/-- Claim C9: a member record lacking `@odata.type` after stripping, and
a recognized record lacking `id`, raise an uncaught KeyError: the member
step returns the error, the whole run aborts, and no `(record, error)`
pair is recorded — the aborted run returns no aggregate at all, as the
two concrete runs show. -/
theorem c9_missing_keys_abort :
    (∀ s r gid m0, alook (stripNulls m0) "@odata.type" = none →
       processMember s r gid m0 = .error (RunError.keyError "@odata.type")) ∧
    (∀ s d, alook d "id" = none →
       _register_user s d = .error (RunError.keyError "id")) ∧
    (∀ s d, alook d "id" = none →
       _register_service_principal s d = .error (RunError.keyError "id")) ∧
    (∀ s d, alook d "id" = none →
       _register_group s d = .error (RunError.keyError "id")) ∧
    get_objects_for_sync env9 ["G"] = .error (RunError.keyError "@odata.type") ∧
    get_objects_for_sync env9b ["G"] = .error (RunError.keyError "id") := by
  refine ⟨?_, ?_, ?_, ?_, rfl, rfl⟩
  · intro s r gid m0 h
    simp only [processMember, h]
  · intro s d h
    simp only [_register_user, h]
  · intro s d h
    simp only [_register_service_principal, h]
  · intro s d h
    simp only [_register_group, h]

/-- Concrete instance of the KeyError claim: a member with an `id` but
no `@odata.type` key. -/
theorem c9_missing_keys_abort_witness :
    processMember {} none "g1" [("id", JVal.str "x")] =
      .error (RunError.keyError "@odata.type") :=
  c9_missing_keys_abort.1 {} none "g1" [("id", JVal.str "x")] rfl

/-! Environment-agreement lemmas: the run reads `membersOf` only at the
ids resolved from the input names. -/

theorem resolvedIds_subset (env : TransportEnv) (name : String)
    (rest : List String) :
    ∀ v ∈ resolvedIds env rest, v ∈ resolvedIds env (name :: rest) := by
  intro v hv
  unfold resolvedIds at hv ⊢
  rw [List.filterMap_cons]
  split
  · exact hv
  · exact List.mem_cons_of_mem _ hv

theorem resolvedIds_head (env : TransportEnv) {name : String}
    (rest : List String) {gi : RawRecord} {gidv : JVal}
    (h1 : get_group_by_name env name = some gi) (h2 : gi ≠ [])
    (h3 : alook gi "id" = some gidv) :
    gidv ∈ resolvedIds env (name :: rest) := by
  unfold resolvedIds
  rw [List.filterMap_cons]
  simp only [h1, if_neg h2, h3]
  exact List.mem_cons_self _ _

theorem processGroup_env_agree {env env' : TransportEnv}
    (hg : env'.groupsByName = env.groupsByName) (s : GraphSyncObject)
    (r : Option Entity) (name : String)
    (hm : ∀ gi gidv, get_group_by_name env name = some gi → gi ≠ [] →
       alook gi "id" = some gidv → env'.membersOf gidv = env.membersOf gidv) :
    processGroup env' s r name = processGroup env s r name := by
  have hgbn : get_group_by_name env' name = get_group_by_name env name := by
    simp [get_group_by_name, hg]
  unfold processGroup
  rw [hgbn]
  cases hres : get_group_by_name env name with
  | none => simp only [hres]
  | some gi =>
    by_cases hgi : gi = []
    · simp only [hres, if_pos hgi]
    · simp only [hres, if_neg hgi]
      cases hid : alook gi "id" with
      | none => simp only [hid]
      | some gidv => simp only [hid, hm gi gidv hres hgi hid]

theorem syncGo_env_agree {env env' : TransportEnv}
    (hg : env'.groupsByName = env.groupsByName) :
    ∀ (names : List String) (s : GraphSyncObject) (r : Option Entity),
      (∀ v ∈ resolvedIds env names, env'.membersOf v = env.membersOf v) →
      syncGo env' s r names = syncGo env s r names := by
  intro names
  induction names with
  | nil => intro s r _; rfl
  | cons name rest ih =>
    intro s r hm
    have hpg : processGroup env' s r name = processGroup env s r name :=
      processGroup_env_agree hg s r name (fun gi gidv h1 h2 h3 =>
        hm gidv (resolvedIds_head env rest h1 h2 h3))
    have hrest : ∀ v ∈ resolvedIds env rest, env'.membersOf v = env.membersOf v :=
      fun v hv => hm v (resolvedIds_subset env name rest v hv)
    cases hres : processGroup env s r name with
    | error e => simp only [syncGo, hpg, hres]
    | ok p =>
      obtain ⟨s', r'⟩ := p
      simp only [syncGo, hpg, hres]
      exact ih s' r' hrest

/-- Claim C7: the traversal never expands a nested group's membership —
a group validated as a member always carries an empty `members` mapping,
and the run's result depends on `membersOf` only at the group ids
resolved from the input name list, so two transports that differ
arbitrarily on every other id (in particular on ids of groups seen only
as members) produce identical results; termination for every finite
input is witnessed by `get_objects_for_sync` being a total structurally
recursive function, so every run evaluates to some result. -/
theorem c7_no_recursive_expansion :
    (∀ m g, GraphGroup.model_validate m = .ok g → g.members = []) ∧
    (∀ env env' names, env'.groupsByName = env.groupsByName →
       (∀ v ∈ resolvedIds env names, env'.membersOf v = env.membersOf v) →
       get_objects_for_sync env' names = get_objects_for_sync env names) ∧
    (∀ env names, ∃ out, get_objects_for_sync env names = out) := by
  refine ⟨?_, ?_, fun env names => ⟨_, rfl⟩⟩
  · intro m g h
    exact (group_validate_ok_inv h).2.2
  · intro env env' names hg hm
    exact syncGo_env_agree hg names {} none hm

/-- Concrete instance: `env7` and `env7b` differ on the members of the
nested group (seen only as a member), yet the runs coincide; the nested
group itself validates with no members. -/
theorem c7_no_recursive_expansion_witness :
    (⟨"nested", "Nested Group", []⟩ : GraphGroup).members = [] ∧
    get_objects_for_sync env7b ["G"] = get_objects_for_sync env7 ["G"] :=
  ⟨c7_no_recursive_expansion.1 nestedGroupMemberRec ⟨"nested", "Nested Group", []⟩ rfl,
   c7_no_recursive_expansion.2.1 env7 env7b ["G"] rfl (by
     intro v hv
     have hv' : v = JVal.str "g1" := by
       have hids : resolvedIds env7 ["G"] = [JVal.str "g1"] := rfl
       rw [hids] at hv
       simpa using hv
     rw [hv']
     rfl)⟩

/-! Linkage-invariant machinery for the group-membership claim. -/

theorem jlook_some {α : Type} {m : List (String × α)} {idv : JVal} {x : α}
    (h : jlook m idv = some x) :
    ∃ k, idv = JVal.str k ∧ alook m k = some x := by
  cases idv with
  | null => simp [jlook] at h
  | str k => exact ⟨k, rfl, h⟩
  | bool b => simp [jlook] at h

theorem alook_map_if {l : List (String × GraphGroup)} {gid : String}
    (f : GraphGroup → GraphGroup) (k : String) :
    alook (l.map (fun p => if p.1 = gid then (p.1, f p.2) else p)) k =
      if k = gid then (alook l k).map f else alook l k := by
  induction l with
  | nil => by_cases h : k = gid <;> simp [alook, h]
  | cons p rest ih =>
    obtain ⟨k₁, v₁⟩ := p
    simp only [List.map_cons]
    have hhead : (if k₁ = gid then (k₁, f v₁) else (k₁, v₁))
        = (k₁, if k₁ = gid then f v₁ else v₁) := by
      by_cases h1 : k₁ = gid <;> simp [h1]
    rw [hhead]
    by_cases h2 : k₁ = k
    · subst h2
      by_cases h1 : k₁ = gid
      · subst h1
        simp [alook]
      · simp [alook, h1]
    · by_cases h1 : k = gid
      · subst h1
        simp [alook, h2, ih]
      · simp [alook, h1, h2, ih]

theorem alook_addMember (s : GraphSyncObject) (gid : String) (e : Entity)
    (k : String) :
    alook (addMember s gid e).groups k =
      if k = gid then
        (alook s.groups k).map
          (fun grp => { grp with members := aset grp.members e.id e.ref })
      else alook s.groups k :=
  alook_map_if (fun grp => { grp with members := aset grp.members e.id e.ref }) k

theorem refOk_users_aset {s : GraphSyncObject} {ref : MemberRef} {k : String}
    {v : GraphUser} (h : refOk s ref) :
    refOk { s with users := aset s.users k v } ref := by
  obtain ⟨kind, i⟩ := ref
  cases kind with
  | user => exact alook_aset_isSome k v h
  | servicePrincipal => exact h
  | group => exact h

theorem refOk_sps_aset {s : GraphSyncObject} {ref : MemberRef} {k : String}
    {v : GraphServicePrincipal} (h : refOk s ref) :
    refOk { s with service_principals := aset s.service_principals k v } ref := by
  obtain ⟨kind, i⟩ := ref
  cases kind with
  | user => exact h
  | servicePrincipal => exact alook_aset_isSome k v h
  | group => exact h

theorem refOk_groups_aset {s : GraphSyncObject} {ref : MemberRef} {k : String}
    {v : GraphGroup} (h : refOk s ref) :
    refOk { s with groups := aset s.groups k v } ref := by
  obtain ⟨kind, i⟩ := ref
  cases kind with
  | user => exact h
  | servicePrincipal => exact h
  | group => exact alook_aset_isSome k v h

theorem refOk_addMember {s : GraphSyncObject} {ref : MemberRef} (gid : String)
    (e : Entity) (h : refOk s ref) : refOk (addMember s gid e) ref := by
  obtain ⟨kind, i⟩ := ref
  cases kind with
  | user => exact h
  | servicePrincipal => exact h
  | group =>
    obtain ⟨gr, hgr⟩ := h
    by_cases hi : i = gid
    · refine ⟨{ gr with members := aset gr.members e.id e.ref }, ?_⟩
      rw [alook_addMember, if_pos hi, hgr]
      rfl
    · refine ⟨gr, ?_⟩
      rw [alook_addMember, if_neg hi]
      exact hgr

theorem _register_user_inv {s : GraphSyncObject} {d : RawRecord} {u : GraphUser}
    {s1 : GraphSyncObject} (h : _register_user s d = .ok (u, s1))
    (hkm : keyMatches s) :
    keyMatches s1 ∧ (∀ ref, refOk s ref → refOk s1 ref) ∧
    refOk s1 ⟨EntityKind.user, u.id⟩ ∧ (membersOk s → membersOk s1) := by
  obtain ⟨idv, h1, hcase⟩ := _register_user_ok_inv h
  rcases hcase with ⟨h2, rfl⟩ | ⟨h2, h3, rfl⟩
  · refine ⟨hkm, fun ref hr => hr, ?_, fun hmo => hmo⟩
    obtain ⟨kk, rfl, hkk⟩ := jlook_some h2
    exact ⟨u, by rw [hkm.1 kk u hkk]; exact hkk⟩
  · refine ⟨?_, fun ref hr => refOk_users_aset hr,
      ⟨u, alook_aset_self s.users u.id u⟩, ?_⟩
    · obtain ⟨hu, hp, hg⟩ := hkm
      refine ⟨?_, hp, hg⟩
      intro k u' hk
      by_cases hku : k = u.id
      · subst hku
        rw [alook_aset_self] at hk
        injection hk with h'
        subst h'
        rfl
      · rw [alook_aset_ne s.users u.id k u hku] at hk
        exact hu k u' hk
    · intro hmo gk grp hg k ref hmem
      obtain ⟨ha, hb⟩ := hmo gk grp hg k ref hmem
      exact ⟨ha, refOk_users_aset hb⟩

theorem _register_service_principal_inv {s : GraphSyncObject} {d : RawRecord}
    {p : GraphServicePrincipal} {s1 : GraphSyncObject}
    (h : _register_service_principal s d = .ok (p, s1)) (hkm : keyMatches s) :
    keyMatches s1 ∧ (∀ ref, refOk s ref → refOk s1 ref) ∧
    refOk s1 ⟨EntityKind.servicePrincipal, p.id⟩ ∧ (membersOk s → membersOk s1) := by
  obtain ⟨idv, h1, hcase⟩ := _register_service_principal_ok_inv h
  rcases hcase with ⟨h2, rfl⟩ | ⟨h2, h3, rfl⟩
  · refine ⟨hkm, fun ref hr => hr, ?_, fun hmo => hmo⟩
    obtain ⟨kk, rfl, hkk⟩ := jlook_some h2
    exact ⟨p, by rw [hkm.2.1 kk p hkk]; exact hkk⟩
  · refine ⟨?_, fun ref hr => refOk_sps_aset hr,
      ⟨p, alook_aset_self s.service_principals p.id p⟩, ?_⟩
    · obtain ⟨hu, hp, hg⟩ := hkm
      refine ⟨hu, ?_, hg⟩
      intro k p' hk
      by_cases hkp : k = p.id
      · subst hkp
        rw [alook_aset_self] at hk
        injection hk with h'
        subst h'
        rfl
      · rw [alook_aset_ne s.service_principals p.id k p hkp] at hk
        exact hp k p' hk
    · intro hmo gk grp hg k ref hmem
      obtain ⟨ha, hb⟩ := hmo gk grp hg k ref hmem
      exact ⟨ha, refOk_sps_aset hb⟩

theorem _register_group_inv {s : GraphSyncObject} {d : RawRecord}
    {g : GraphGroup} {s1 : GraphSyncObject}
    (h : _register_group s d = .ok (g, s1)) (hkm : keyMatches s) :
    keyMatches s1 ∧ (∀ ref, refOk s ref → refOk s1 ref) ∧
    refOk s1 ⟨EntityKind.group, g.id⟩ ∧ (membersOk s → membersOk s1) := by
  obtain ⟨idv, h1, hcase⟩ := _register_group_ok_inv h
  rcases hcase with ⟨h2, rfl⟩ | ⟨h2, h3, rfl⟩
  · refine ⟨hkm, fun ref hr => hr, ?_, fun hmo => hmo⟩
    obtain ⟨kk, rfl, hkk⟩ := jlook_some h2
    exact ⟨g, by rw [hkm.2.2 kk g hkk]; exact hkk⟩
  · have hgm : g.members = [] := (group_validate_ok_inv h3).2.2
    refine ⟨?_, fun ref hr => refOk_groups_aset hr,
      ⟨g, alook_aset_self s.groups g.id g⟩, ?_⟩
    · obtain ⟨hu, hp, hg⟩ := hkm
      refine ⟨hu, hp, ?_⟩
      intro k g' hk
      by_cases hkg : k = g.id
      · subst hkg
        rw [alook_aset_self] at hk
        injection hk with h'
        subst h'
        rfl
      · rw [alook_aset_ne s.groups g.id k g hkg] at hk
        exact hg k g' hk
    · intro hmo gk grp hg k ref hmem
      by_cases hgk : gk = g.id
      · subst hgk
        rw [alook_aset_self] at hg
        injection hg with h'
        subst h'
        rw [hgm] at hmem
        simp at hmem
      · rw [alook_aset_ne s.groups g.id gk g hgk] at hg
        obtain ⟨ha, hb⟩ := hmo gk grp hg k ref hmem
        exact ⟨ha, refOk_groups_aset hb⟩

theorem addMember_inv {s : GraphSyncObject} {gid : String} {e : Entity}
    (hInv : Inv s (some e)) : Inv (addMember s gid e) (some e) := by
  obtain ⟨⟨hu, hp, hg⟩, hmo, hro⟩ := hInv
  refine ⟨⟨hu, hp, ?_⟩, ?_, refOk_addMember gid e hro⟩
  · intro k gr hk
    rw [alook_addMember] at hk
    by_cases hkg : k = gid
    · rw [if_pos hkg] at hk
      cases ho : alook s.groups k with
      | none => rw [ho] at hk; simp at hk
      | some gr0 =>
        rw [ho] at hk
        injection hk with h'
        rw [← h']
        exact hg k gr0 ho
    · rw [if_neg hkg] at hk
      exact hg k gr hk
  · intro gk grp hgk k ref hmem
    rw [alook_addMember] at hgk
    by_cases hkg : gk = gid
    · rw [if_pos hkg] at hgk
      cases ho : alook s.groups gk with
      | none => rw [ho] at hgk; simp at hgk
      | some gr0 =>
        rw [ho] at hgk
        injection hgk with h'
        rw [← h'] at hmem
        rcases mem_aset hmem with heq | hold
        · obtain ⟨rfl, rfl⟩ : k = e.id ∧ ref = e.ref := by
            simpa [Prod.ext_iff] using heq
          exact ⟨rfl, refOk_addMember gid e hro⟩
        · obtain ⟨ha, hb⟩ := hmo gk gr0 ho k ref hold
          exact ⟨ha, refOk_addMember gid e hb⟩
    · rw [if_neg hkg] at hgk
      obtain ⟨ha, hb⟩ := hmo gk grp hgk k ref hmem
      exact ⟨ha, refOk_addMember gid e hb⟩

theorem registerDispatch_inv {s : GraphSyncObject} {r : Option Entity} {t : JVal}
    {m : RawRecord} {s2 : GraphSyncObject} {r2 : Option Entity}
    (h : registerDispatch s r t m = .ok (s2, r2)) (hInv : Inv s r) :
    Inv s2 r2 := by
  obtain ⟨hkm, hmo, hro⟩ := hInv
  unfold registerDispatch at h
  split_ifs at h with h1 h2 h3
  · split at h
    · exact absurd h (by simp)
    next u s' hreg =>
      obtain ⟨rfl, rfl⟩ : s' = s2 ∧ some (Entity.user u) = r2 := by simpa using h
      obtain ⟨hkm1, hmono, hself, hmembers⟩ := _register_user_inv hreg hkm
      exact ⟨hkm1, hmembers hmo, hself⟩
  · split at h
    · exact absurd h (by simp)
    next p s' hreg =>
      obtain ⟨rfl, rfl⟩ : s' = s2 ∧ some (Entity.servicePrincipal p) = r2 := by
        simpa using h
      obtain ⟨hkm1, hmono, hself, hmembers⟩ := _register_service_principal_inv hreg hkm
      exact ⟨hkm1, hmembers hmo, hself⟩
  · split at h
    · exact absurd h (by simp)
    next g s' hreg =>
      obtain ⟨rfl, rfl⟩ : s' = s2 ∧ some (Entity.group g) = r2 := by simpa using h
      obtain ⟨hkm1, hmono, hself, hmembers⟩ := _register_group_inv hreg hkm
      exact ⟨hkm1, hmembers hmo, hself⟩
  · obtain ⟨rfl, rfl⟩ : s = s2 ∧ r = r2 := by simpa using h
    exact ⟨hkm, hmo, hro⟩

theorem processMember_inv {s : GraphSyncObject} {r : Option Entity} {gid : String}
    {m0 : RawRecord} {s' : GraphSyncObject} {r' : Option Entity}
    (h : processMember s r gid m0 = .ok (s', r')) (hInv : Inv s r) :
    Inv s' r' := by
  unfold processMember at h
  simp only [] at h
  split at h
  · exact absurd h (by simp)
  next t hodata =>
    split at h
    · exact absurd h (by simp)
    · exact absurd h (by simp)
    next s2 e hdisp =>
      obtain ⟨rfl, rfl⟩ : addMember s2 gid e = s' ∧ some e = r' := by simpa using h
      exact addMember_inv (registerDispatch_inv hdisp hInv)

theorem processMembers_inv (gid : String) :
    ∀ (ms : List RawRecord) (s : GraphSyncObject) (r : Option Entity)
      (s' : GraphSyncObject) (r' : Option Entity),
      processMembers gid s r ms = .ok (s', r') → Inv s r → Inv s' r' := by
  intro ms
  induction ms with
  | nil =>
    intro s r s' r' h hInv
    obtain ⟨rfl, rfl⟩ : s = s' ∧ r = r' := by simpa [processMembers] using h
    exact hInv
  | cons m rest ih =>
    intro s r s' r' h hInv
    unfold processMembers at h
    split at h
    · exact absurd h (by simp)
    next s1 r1 heq =>
      exact ih s1 r1 s' r' h (processMember_inv heq hInv)

theorem processGroup_inv {env : TransportEnv} {s : GraphSyncObject}
    {r : Option Entity} {name : String} {s' : GraphSyncObject}
    {r' : Option Entity} (h : processGroup env s r name = .ok (s', r'))
    (hInv : Inv s r) : Inv s' r' := by
  unfold processGroup at h
  split at h
  · obtain ⟨rfl, rfl⟩ : s = s' ∧ r = r' := by simpa using h
    exact hInv
  next gi hgi =>
    split_ifs at h with hempty
    · obtain ⟨rfl, rfl⟩ : s = s' ∧ r = r' := by simpa using h
      exact hInv
    · split at h
      · exact absurd h (by simp)
      next gidv hid =>
        split at h
        · exact absurd h (by simp)
        next gobj s1 hreg =>
          split at h
          next gs =>
            split at h
            · exact absurd h (by simp)
            next grp0 hlook =>
              obtain ⟨hkm, hmo, hro⟩ := hInv
              obtain ⟨hkm1, hmono, hself, hmembers⟩ := _register_group_inv hreg hkm
              have hro1 : rOk s1 r := by
                cases r with
                | none => trivial
                | some e => exact hmono _ hro
              exact processMembers_inv gs _ s1 r s' r' h ⟨hkm1, hmembers hmo, hro1⟩
          · exact absurd h (by simp)

theorem syncGo_inv {env : TransportEnv} :
    ∀ (names : List String) (s : GraphSyncObject) (r : Option Entity)
      (g : GraphSyncObject), syncGo env s r names = .ok g → Inv s r →
      keyMatches g ∧ membersOk g := by
  intro names
  induction names with
  | nil =>
    intro s r g h hInv
    obtain rfl : s = g := by simpa [syncGo] using h
    exact ⟨hInv.1, hInv.2.1⟩
  | cons name rest ih =>
    intro s r g h hInv
    unfold syncGo at h
    split at h
    · exact absurd h (by simp)
    next s1 r1 heq =>
      exact ih s1 r1 g h (processGroup_inv heq hInv)

theorem Inv_init : Inv {} none := by
  refine ⟨⟨?_, ?_, ?_⟩, ?_, trivial⟩
  · intro k u hk
    simp [alook] at hk
  · intro k p hk
    simp [alook] at hk
  · intro k gr hk
    simp [alook] at hk
  · intro gk grp hg k ref hm
    simp [alook] at hg

/-- Claim C6: in every aggregate returned by a completed run, every key
of every group's `members` mapping is the id of the reference stored
under it, that reference points at an object registered in the mapping
of its kind (which, by Python reference semantics, is the very object
that was inserted), and in particular the key occurs in the users, the
service-principals, or the groups mapping of the same aggregate. -/
theorem c6_group_linkage (env : TransportEnv) (names : List String)
    (g : GraphSyncObject) (h : get_objects_for_sync env names = .ok g)
    (gk : String) (grp : GraphGroup) (hg : alook g.groups gk = some grp)
    (k : String) (ref : MemberRef) (hm : (k, ref) ∈ grp.members) :
    ref.id = k ∧ refOk g ref ∧
      ((∃ u, alook g.users k = some u) ∨
       (∃ p, alook g.service_principals k = some p) ∨
       (∃ gr, alook g.groups k = some gr)) := by
  have hmo := (syncGo_inv names {} none g h Inv_init).2
  obtain ⟨h1, h2⟩ := hmo gk grp hg k ref hm
  refine ⟨h1, h2, ?_⟩
  obtain ⟨kind, i⟩ := ref
  have hik : i = k := h1
  subst hik
  cases kind with
  | user => exact Or.inl h2
  | servicePrincipal => exact Or.inr (Or.inl h2)
  | group => exact Or.inr (Or.inr h2)

/-- Concrete instance of the linkage claim on the completed `env6` run. -/
theorem c6_group_linkage_witness :
    (⟨EntityKind.user, "u1"⟩ : MemberRef).id = "u1" ∧
    refOk g6 ⟨EntityKind.user, "u1"⟩ ∧
    ((∃ u, alook g6.users "u1" = some u) ∨
     (∃ p, alook g6.service_principals "u1" = some p) ∨
     (∃ gr, alook g6.groups "u1" = some gr)) :=
  c6_group_linkage env6 ["G"] g6 rfl "g1" grp6 rfl "u1" ⟨EntityKind.user, "u1"⟩
    (by simp [grp6])

end ScimSync
